import Mathlib

/-!
Verification development for the garage tire-storage server (`src/app.js`).

The embedding models the Mongoose data model (racks, tires), the POST /racks
handler, the POST /tires two-pass placement algorithm, GET /tires/search and
DELETE /tires/:id, over explicit state passing.  JS numbers are modelled as
`Rat`, MongoDB ObjectIds as `String`, and nullable fields as `Option`.
-/

namespace Garage

/-- Row of a rack: `row: { type: String, enum: ['front', 'back'] }`. -/
inductive Row where
  | front
  | back
deriving DecidableEq, Fintype

/-- Tire location subdocument: `location: { rackId, row }`. -/
structure Location where
  rackId : String
  row : Row
deriving DecidableEq

/-- Rack document (rackSchema): name, totalWidth, isDouble, optional
reservedForBrand (null by default), userId. -/
structure Rack where
  id : String
  name : String
  totalWidth : Rat
  isDouble : Bool
  reservedForBrand : Option String
  userId : Nat
deriving DecidableEq

/-- Tire document (tireSchema): eprelCode, brand, model, width, aspectRatio,
diameter, userId, optional location. -/
structure Tire where
  id : String
  eprelCode : String
  brand : String
  model : String
  width : Rat
  aspectRatio : Int
  diameter : Int
  userId : Nat
  location : Option Location
deriving DecidableEq

/-- Resolved tire attributes returned by `getEprelData` (the external catalog
lookup): brand, model, width, aspectRatio, diameter. -/
structure TireData where
  brand : String
  model : String
  width : Rat
  aspectRatio : Int
  diameter : Int
deriving DecidableEq

/-- The persistent store: all racks and tires (both in insertion order, which
is the order `Rack.find` / `Tire.find` return), plus a counter from which
fresh ObjectIds are generated. -/
structure St where
  racks : List Rack
  tires : List Tire
  nextId : Nat
deriving DecidableEq

/-- Fresh ObjectId: 24 hexadecimal characters encoding the counter. -/
def oid (n : Nat) : String :=
  let ds := Nat.toDigits 16 n
  String.mk (List.replicate (24 - ds.length) '0' ++ ds)

/-- Hexadecimal character test, used by ObjectId syntax validation. -/
def isHexChar (c : Char) : Bool :=
  c.isDigit || ('a' ≤ c && c ≤ 'f') || ('A' ≤ c && c ≤ 'F')

/-- Models `mongoose.Types.ObjectId.isValid(id)` on strings: a 24-character
hexadecimal string, or any 12-character string. -/
def isValidObjectId (id : String) : Bool :=
  (id.length == 24 && id.data.all isHexChar) || id.length == 12

/-- Models JS `String.prototype.toUpperCase()`: uppercase every character. -/
def toUpperStr (s : String) : String :=
  String.mk (s.data.map Char.toUpper)

/-- Drop whitespace from both ends of a character list. -/
def trimL (cs : List Char) : List Char :=
  ((cs.dropWhile Char.isWhitespace).reverse.dropWhile Char.isWhitespace).reverse

/-- Models JS `String.prototype.trim()`: drop surrounding whitespace. -/
def trimStr (s : String) : String :=
  String.mk (trimL s.data)

/-- Models the POST /racks normalization
`reservedForBrand ? reservedForBrand.trim().toUpperCase() : null`:
a missing or empty (JS-falsy) string yields null. -/
def normalizeBrand : Option String → Option String
  | none => none
  | some s => if s = "" then none else some (toUpperStr (trimStr s))

/-- Models the eligibility test
`!rack.reservedForBrand || rack.reservedForBrand === tireBrandUpper`:
in JS both null and the empty string are falsy. -/
def isEligible (r : Rack) (brandUpper : String) : Bool :=
  match r.reservedForBrand with
  | none => true
  | some s => s == "" || s == brandUpper

/-- Models `t.location.rackId.equals(rack._id) && t.location.row === row`
(false when the tire has no location). -/
def atRow (t : Tire) (rid : String) (w : Row) : Bool :=
  match t.location with
  | some l => l.rackId == rid && l.row == w
  | none => false

/-- Models `storedTires.filter(t => at rack/row).reduce((sum, t) => sum + t.width, 0)`. -/
def occupiedWidth (tires : List Tire) (rid : String) (w : Row) : Rat :=
  ((tires.filter (fun t => atRow t rid w)).map Tire.width).sum

/-- Models `storedTires.filter(t => at rack/row && t.eprelCode === eprelCode).length`. -/
def sameTypeCount (tires : List Tire) (rid : String) (w : Row) (code : String) : Nat :=
  (tires.filter (fun t => atRow t rid w && t.eprelCode == code)).length

/-- First placement loop of POST /tires (Stratégie 1): over eligible double
racks in order, if strictly more same-code tires sit in front than in back and
the back row has residual width, assign the back row and break. -/
def backLoop (code : String) (w : Rat) (stored : List Tire) : List Rack → Option Location
  | [] => none
  | r :: rs =>
    if sameTypeCount stored r.id Row.front code > sameTypeCount stored r.id Row.back code then
      if r.totalWidth - occupiedWidth stored r.id Row.back ≥ w then
        some { rackId := r.id, row := Row.back }
      else backLoop code w stored rs
    else backLoop code w stored rs

/-- Second placement loop of POST /tires (Stratégie 2): over all eligible
racks in order, assign the front row at the first rack with residual width. -/
def frontLoop (w : Rat) (stored : List Tire) : List Rack → Option Location
  | [] => none
  | r :: rs =>
    if r.totalWidth - occupiedWidth stored r.id Row.front ≥ w then
      some { rackId := r.id, row := Row.front }
    else frontLoop w stored rs

/-- The placement decision of POST /tires: filter eligible racks by brand
reservation, run the pairing loop over the double ones, then the front-row
loop over all of them. -/
def placeTire (code : String) (d : TireData) (racks : List Rack) (stored : List Tire) :
    Option Location :=
  let brandUpper := toUpperStr d.brand
  let eligible := racks.filter (fun r => isEligible r brandUpper)
  match backLoop code d.width stored (eligible.filter (fun r => r.isDouble)) with
  | some loc => some loc
  | none => frontLoop d.width stored eligible

/-- Pairing-pass condition as worded by the specification: an unmatched
same-code front tire exists and the back row has residual width. -/
def pairingPred (code : String) (w : Rat) (stored : List Tire) (r : Rack) : Bool :=
  decide (sameTypeCount stored r.id Row.front code > sameTypeCount stored r.id Row.back code) &&
  decide (r.totalWidth - occupiedWidth stored r.id Row.back ≥ w)

/-- Front-pass condition as worded by the specification: the front row has
residual width at least the tire's width. -/
def frontPred (w : Rat) (stored : List Tire) (r : Rack) : Bool :=
  decide (r.totalWidth - occupiedWidth stored r.id Row.front ≥ w)

/-- Placement algorithm as worded by the specification (§4.2): eligibility
filter, then the first eligible double rack satisfying the pairing condition
wins the back row; only if none does, the first eligible rack with front
residual width wins the front row. -/
def placeTireSpec (code : String) (d : TireData) (racks : List Rack) (stored : List Tire) :
    Option Location :=
  let eligible := racks.filter (fun r => isEligible r (toUpperStr d.brand))
  match (eligible.filter (fun r => r.isDouble)).find? (pairingPred code d.width stored) with
  | some r => some { rackId := r.id, row := Row.back }
  | none => (eligible.find? (frontPred d.width stored)).map
      (fun r => { rackId := r.id, row := Row.front })

/-- Request body of POST /racks; every field may be absent. -/
structure RackInput where
  name : Option String
  totalWidth : Option Rat
  isDouble : Option Bool
  reservedForBrand : Option String
deriving DecidableEq

/-- Outcome of POST /racks: 201 with the new rack, or 400 on a Mongoose
validation error. -/
inductive RackResult where
  | created (r : Rack)
  | validationError
deriving DecidableEq

/-- Models POST /racks together with Mongoose validation on save: `required`
on a String rejects a missing or empty name, `required` on a Number rejects
only a missing value (there is no minimum constraint on `totalWidth`);
`isDouble` defaults to false; `reservedForBrand` is normalized by the
handler.  On validation failure nothing is saved. -/
def postRacks (uid : Nat) (inp : RackInput) (s : St) : RackResult × St :=
  match inp.name, inp.totalWidth with
  | some nm, some tw =>
    if nm = "" then (RackResult.validationError, s)
    else
      let r : Rack :=
        { id := oid s.nextId, name := nm, totalWidth := tw,
          isDouble := inp.isDouble.getD false,
          reservedForBrand := normalizeBrand inp.reservedForBrand, userId := uid }
      (RackResult.created r, { racks := s.racks ++ [r], tires := s.tires, nextId := s.nextId + 1 })
  | _, _ => (RackResult.validationError, s)

/-- Models `Tire.find({ userId, location: { $ne: null } })`: the user's
stored tires that have a location. -/
def storedL (uid : Nat) (ts : List Tire) : List Tire :=
  ts.filter (fun t => t.userId == uid && t.location.isSome)

/-- Outcome of the placement part of POST /tires: 201 with the new tire, or
400 `Aucun emplacement disponible` carrying the resolved attributes. -/
inductive TireResult where
  | created (t : Tire)
  | noSpace (d : TireData)
deriving DecidableEq

/-- Models POST /tires after a successful catalog lookup resolved `d`: read
the user's racks and stored tires, run the two placement passes, and either
save a new tire at the found location or answer `noSpace` with the resolved
attributes and leave the store untouched. -/
def postTires (uid : Nat) (code : String) (d : TireData) (s : St) : TireResult × St :=
  let userRacks := s.racks.filter (fun r => r.userId == uid)
  let stored := storedL uid s.tires
  match placeTire code d userRacks stored with
  | some loc =>
    let t : Tire :=
      { id := oid s.nextId, eprelCode := code, brand := d.brand, model := d.model,
        width := d.width, aspectRatio := d.aspectRatio, diameter := d.diameter,
        userId := uid, location := some loc }
    (TireResult.created t, { racks := s.racks, tires := s.tires ++ [t], nextId := s.nextId + 1 })
  | none => (TireResult.noSpace d, s)

/-- Token of a JS regular-expression pattern, for the fragment of patterns
the search route is modelled on: `.` is a wildcard, every other character of
the query is a literal. -/
inductive RTok where
  | anyChar
  | lit (c : Char)
deriving DecidableEq

/-- Compile a query string (as a character list) into pattern tokens, the way
`new RegExp(query)` reads it on the metacharacter-free-except-dot fragment. -/
def parsePatL (cs : List Char) : List RTok :=
  cs.map (fun c => if c = '.' then RTok.anyChar else RTok.lit c)

/-- Case-insensitive single-token match (the `'i'` flag). -/
def tokMatch : RTok → Char → Bool
  | RTok.anyChar, _ => true
  | RTok.lit c, d => c.toLower == d.toLower

/-- Match the whole token list against a prefix of the text. -/
def matchHere : List RTok → List Char → Bool
  | [], _ => true
  | _ :: _, [] => false
  | t :: ts, c :: cs => tokMatch t c && matchHere ts cs

/-- Unanchored search: the pattern matches at some position of the text. -/
def findMatch (toks : List RTok) : List Char → Bool
  | [] => matchHere toks []
  | c :: cs => matchHere toks (c :: cs) || findMatch toks cs

/-- Models `new RegExp(query, 'i').test(field)` on the modelled pattern
fragment: unanchored, case-insensitive. -/
def regexTestCI (pat s : String) : Bool :=
  findMatch (parsePatL pat.data) s.data

/-- Case-insensitive prefix comparison of character lists. -/
def isPrefixCI : List Char → List Char → Bool
  | [], _ => true
  | _ :: _, [] => false
  | c :: cs, d :: ds => (c.toLower == d.toLower) && isPrefixCI cs ds

/-- The needle occurs at some position of the haystack, case-insensitively. -/
def occursCI (nd : List Char) : List Char → Bool
  | [] => isPrefixCI nd []
  | c :: cs => isPrefixCI nd (c :: cs) || occursCI nd cs

/-- The specification's search predicate: the query is a case-insensitive,
unanchored substring of the field. -/
def substrCI (needle hay : String) : Bool :=
  occursCI needle.data hay.data

/-- JS regular-expression metacharacters. -/
def jsRegexMeta : List Char :=
  [Char.ofNat 92, '^', '$', '.', '*', '+', '?', '(', ')', '[', ']',
   Char.ofNat 123, Char.ofNat 125, '|']

/-- Models GET /tires/search: 400 (none) when the query is missing or empty,
otherwise the user's tires whose model, brand or eprelCode matches
`new RegExp(query, 'i')`. -/
def getSearch (uid : Nat) (query : String) (s : St) : Option (List Tire) :=
  if query = "" then none
  else some (s.tires.filter (fun t =>
    t.userId == uid &&
      (regexTestCI query t.model || regexTestCI query t.brand || regexTestCI query t.eprelCode)))

/-- Outcome of DELETE /tires/:id: 200 with the removed tire, 400 on a
syntactically invalid id, 404 when no owned tire matches. -/
inductive DeleteResult where
  | deleted (t : Tire)
  | invalidId
  | notFound
deriving DecidableEq

/-- Models DELETE /tires/:id: reject syntactically invalid ids before any
query, then `Tire.findOneAndDelete({ _id: id, userId })` — remove the first
(unique) tire with that id owned by the caller, 404 when there is none. -/
def deleteTire (uid : Nat) (id : String) (s : St) : DeleteResult × St :=
  if isValidObjectId id then
    match s.tires.find? (fun t => t.id == id && t.userId == uid) with
    | some t =>
      (DeleteResult.deleted t,
       { racks := s.racks, tires := s.tires.eraseP (fun t => t.id == id && t.userId == uid),
         nextId := s.nextId })
    | none => (DeleteResult.notFound, s)
  else (DeleteResult.invalidId, s)

/-- Capacity invariant of the specification (§3 invariant 1, §8), per owner:
for every rack of that owner and each row, the total width of the owner's
tires placed there does not exceed the rack's totalWidth. -/
def Inv (v : Nat) (s : St) : Prop :=
  ∀ r ∈ s.racks, r.userId = v →
    ∀ w : Row, occupiedWidth (storedL v s.tires) r.id w ≤ r.totalWidth

/-- Data-model well-formedness used as a hypothesis: rack identities are
pairwise distinct (MongoDB `_id` uniqueness) and tire widths are nonnegative
(widths are positive physical quantities). -/
def StWF (s : St) : Prop :=
  (s.racks.map Rack.id).Nodup ∧ ∀ t ∈ s.tires, 0 ≤ t.width

theorem backLoop_eq_find (code : String) (w : Rat) (stored : List Tire) :
    ∀ rs : List Rack, backLoop code w stored rs =
      (rs.find? (pairingPred code w stored)).map (fun r => { rackId := r.id, row := Row.back }) := by
  intro rs
  induction rs with
  | nil => rfl
  | cons r rs ih =>
    by_cases h1 : sameTypeCount stored r.id Row.front code > sameTypeCount stored r.id Row.back code
    · by_cases h2 : r.totalWidth - occupiedWidth stored r.id Row.back ≥ w
      · simp [backLoop, List.find?, pairingPred, h1, h2]
      · simp [backLoop, List.find?, pairingPred, h1, h2, ih]
    · simp [backLoop, List.find?, pairingPred, h1, ih]

theorem frontLoop_eq_find (w : Rat) (stored : List Tire) :
    ∀ rs : List Rack, frontLoop w stored rs =
      (rs.find? (frontPred w stored)).map (fun r => { rackId := r.id, row := Row.front }) := by
  intro rs
  induction rs with
  | nil => rfl
  | cons r rs ih =>
    by_cases h : r.totalWidth - occupiedWidth stored r.id Row.front ≥ w
    · simp [frontLoop, List.find?, frontPred, h]
    · simp [frontLoop, List.find?, frontPred, h, ih]

theorem placeTire_eq (code : String) (d : TireData) (racks : List Rack) (stored : List Tire) :
    placeTire code d racks stored = placeTireSpec code d racks stored := by
  unfold placeTire placeTireSpec
  simp only []
  rw [backLoop_eq_find, frontLoop_eq_find]
  cases ((racks.filter (fun r => isEligible r (toUpperStr d.brand))).filter
      (fun r => r.isDouble)).find? (pairingPred code d.width stored) <;> simp

/-- Success characterization of the placement decision: the assigned rack is
one of the supplied racks, is eligible, and its target row has residual
capacity for the new tire. -/
theorem place_some_spec (code : String) (d : TireData) (racks : List Rack) (stored : List Tire)
    (loc : Location) (h : placeTire code d racks stored = some loc) :
    ∃ r ∈ racks, r.id = loc.rackId ∧ isEligible r (toUpperStr d.brand) = true ∧
      occupiedWidth stored r.id loc.row + d.width ≤ r.totalWidth := by
  rw [placeTire_eq] at h
  unfold placeTireSpec at h
  simp only at h
  rcases hb : ((racks.filter (fun r => isEligible r (toUpperStr d.brand))).filter
      (fun r => r.isDouble)).find? (pairingPred code d.width stored) with _ | r
  · rw [hb] at h
    simp only [Option.map_eq_some'] at h
    obtain ⟨r, hf, hl⟩ := h
    have hmem := List.mem_of_find?_eq_some hf
    have hpred := List.find?_some hf
    rw [List.mem_filter] at hmem
    refine ⟨r, hmem.1, ?_, hmem.2, ?_⟩
    · rw [← hl]
    · unfold frontPred at hpred
      rw [decide_eq_true_eq] at hpred
      rw [← hl]
      simp only
      linarith
  · rw [hb] at h
    have hmem := List.mem_of_find?_eq_some hb
    have hpred := List.find?_some hb
    rw [List.mem_filter] at hmem
    rw [List.mem_filter] at hmem
    obtain ⟨⟨hrmem, helig⟩, _⟩ := hmem
    refine ⟨r, hrmem, ?_, helig, ?_⟩
    · cases h; rfl
    · unfold pairingPred at hpred
      rw [Bool.and_eq_true, decide_eq_true_eq, decide_eq_true_eq] at hpred
      cases h
      simp only
      linarith [hpred.2]

theorem occupiedWidth_append_single (l : List Tire) (t : Tire) (rid : String) (w : Row) :
    occupiedWidth (l ++ [t]) rid w =
      occupiedWidth l rid w + (if atRow t rid w then t.width else 0) := by
  unfold occupiedWidth
  rw [List.filter_append]
  by_cases h : atRow t rid w
  · simp [h]
  · simp [h]

theorem occupiedWidth_mono (ts₁ ts₂ : List Tire) (rid : String) (w : Row)
    (hsub : ts₁.Sublist ts₂) (h0 : ∀ t ∈ ts₂, 0 ≤ t.width) :
    occupiedWidth ts₁ rid w ≤ occupiedWidth ts₂ rid w := by
  unfold occupiedWidth
  refine List.Sublist.sum_le_sum ((hsub.filter _).map _) ?_
  intro a ha
  rw [List.mem_map] at ha
  obtain ⟨t, ht, rfl⟩ := ha
  exact h0 t (List.mem_of_mem_filter ht)

theorem storedL_append (uid : Nat) (ts : List Tire) (t : Tire) :
    storedL uid (ts ++ [t]) =
      storedL uid ts ++ (if t.userId == uid && t.location.isSome then [t] else []) := by
  unfold storedL
  rw [List.filter_append]
  by_cases h : t.userId == uid && t.location.isSome
  · simp [h]
  · simp [h]

/-- Concrete fixture: one non-double rack of width 20, no reservation. -/
def rackA : Rack :=
  { id := "aaaaaaaaaaaaaaaaaaaaaaaa", name := "A", totalWidth := 20, isDouble := false,
    reservedForBrand := none, userId := 0 }

/-- Concrete fixture: a rack reserved for BRANDX. -/
def rackR : Rack :=
  { id := "bbbbbbbbbbbbbbbbbbbbbbbb", name := "B", totalWidth := 100, isDouble := false,
    reservedForBrand := some "BRANDX", userId := 0 }

/-- Concrete fixture: store holding only `rackA`. -/
def stA : St := { racks := [rackA], tires := [], nextId := 0 }

/-- Concrete fixture: resolved attributes of a width-20 tire. -/
def tdA : TireData := { brand := "B", model := "M", width := 20, aspectRatio := 55, diameter := 16 }

/-- Concrete fixture: resolved attributes of a width-1 tire. -/
def tdB : TireData := { brand := "B", model := "M", width := 1, aspectRatio := 55, diameter := 16 }

/-- C1: the placement decision is exactly the specification's two-pass
algorithm — a pairing pass over eligible `isDouble` racks in creation order
assigning the back row at the first rack with strictly more same-code front
tires than back tires and back residual width at least the tire's width, and
a front-row fallback over all eligible racks in creation order that runs only
when the pairing pass assigned nothing. -/
theorem C1_two_pass_placement (code : String) (d : TireData) (racks : List Rack)
    (stored : List Tire) :
    placeTire code d racks stored = placeTireSpec code d racks stored :=
  placeTire_eq code d racks stored

/-- C3: a rack is eligible iff its brand reservation is absent or equals the
tire's brand uppercased (for racks whose stored reservation is not the empty
string, the only well-formed values), and any rack assigned by either
placement pass is eligible — so a rack reserved for another brand is never
assigned, whatever its free capacity. -/
theorem C3_brand_reservation_eligibility :
    (∀ (r : Rack) (b : String), r.reservedForBrand ≠ some "" →
      (isEligible r b = true ↔ (r.reservedForBrand = none ∨ r.reservedForBrand = some b))) ∧
    (∀ (code : String) (d : TireData) (racks : List Rack) (stored : List Tire) (loc : Location),
      placeTire code d racks stored = some loc →
      ∃ r ∈ racks, r.id = loc.rackId ∧ isEligible r (toUpperStr d.brand) = true) := by
  constructor
  · intro r b hne
    cases hr : r.reservedForBrand with
    | none => simp [isEligible, hr]
    | some s =>
      have hs : s ≠ "" := fun h => hne (by rw [hr, h])
      simp [isEligible, hr, hs]
  · intro code d racks stored loc h
    obtain ⟨r, hrmem, hrid, helig, _⟩ := place_some_spec code d racks stored loc h
    exact ⟨r, hrmem, hrid, helig⟩

theorem C3_brand_reservation_eligibility_witness :
    (isEligible rackR "BRANDX" = true ↔
      (rackR.reservedForBrand = none ∨ rackR.reservedForBrand = some "BRANDX")) ∧
    (∃ r ∈ [rackA], r.id = Location.rackId { rackId := rackA.id, row := Row.front } ∧
      isEligible r (toUpperStr tdA.brand) = true) :=
  ⟨C3_brand_reservation_eligibility.1 rackR "BRANDX" (by decide),
   C3_brand_reservation_eligibility.2 "c1" tdA [rackA] []
     { rackId := rackA.id, row := Row.front } (by with_unfolding_all decide)⟩

/-- C4: width exactly equal to the remaining capacity is accepted (the
comparison is `>=`): on one non-double width-20 rack with no reservation, a
width-20 tire is placed at the front, and a following width-1 tire fails with
`noSpace` leaving the store unchanged. -/
theorem C4_exact_fit_boundary :
    (postTires 0 "c1" tdA stA).1 =
      TireResult.created
        { id := oid 0, eprelCode := "c1", brand := "B", model := "M", width := 20,
          aspectRatio := 55, diameter := 16, userId := 0,
          location := some { rackId := rackA.id, row := Row.front } } ∧
    postTires 0 "c2" tdB (postTires 0 "c1" tdA stA).2 =
      (TireResult.noSpace tdB, (postTires 0 "c1" tdA stA).2) := by
  with_unfolding_all decide

/-- C9: the placement decision is a pure function of the resolved tire
attributes and the snapshot of racks and stored tires: identical inputs give
identical outcomes. -/
theorem C9_placement_deterministic (code₁ code₂ : String) (d₁ d₂ : TireData)
    (racks₁ racks₂ : List Rack) (stored₁ stored₂ : List Tire)
    (hc : code₁ = code₂) (hd : d₁ = d₂) (hr : racks₁ = racks₂) (hs : stored₁ = stored₂) :
    placeTire code₁ d₁ racks₁ stored₁ = placeTire code₂ d₂ racks₂ stored₂ := by
  subst hc; subst hd; subst hr; subst hs; rfl

theorem C9_placement_deterministic_witness :
    placeTire "c1" tdA [rackA] [] = placeTire "c1" tdA [rackA] [] :=
  C9_placement_deterministic "c1" "c1" tdA tdA [rackA] [rackA] [] [] rfl rfl rfl rfl

/-- C2: for every owner, from any well-formed state satisfying the capacity
invariant, the state after a placement request (successful or not) and the
state after a deletion request both satisfy the capacity invariant: the total
width of the owner's tires at each rack row stays within the rack's
totalWidth. -/
theorem C2_capacity_invariant_preserved (v uid : Nat) (code : String) (d : TireData)
    (idq : String) (s : St) (hwf : StWF s) (hinv : Inv v s) :
    Inv v (postTires uid code d s).2 ∧ Inv v (deleteTire uid idq s).2 := by
  obtain ⟨hnodup, hw⟩ := hwf
  constructor
  · rcases hp : placeTire code d (s.racks.filter (fun r => r.userId == uid))
        (storedL uid s.tires) with _ | loc
    · simp only [postTires, hp]
      exact hinv
    · simp only [postTires, hp]
      intro r' hr' hru w
      simp only at hr' ⊢
      rw [storedL_append]
      by_cases hv : v = uid
      · subst hv
        simp only [beq_self_eq_true, Option.isSome_some, Bool.and_self, if_true]
        rw [occupiedWidth_append_single]
        by_cases hat : atRow
            { id := oid s.nextId, eprelCode := code, brand := d.brand, model := d.model,
              width := d.width, aspectRatio := d.aspectRatio, diameter := d.diameter,
              userId := v, location := some loc } r'.id w = true
        · rw [if_pos hat]
          obtain ⟨r, hrmem, hrid, _, hcap⟩ := place_some_spec code d _ _ loc hp
          rw [List.mem_filter] at hrmem
          obtain ⟨hrmem, _⟩ := hrmem
          unfold atRow at hat
          simp only [Bool.and_eq_true, beq_iff_eq] at hat
          obtain ⟨hid, hrow⟩ := hat
          have hreq : r' = r := by
            refine List.inj_on_of_nodup_map hnodup hr' hrmem ?_
            rw [← hid, hrid]
          subst hreq
          rw [← hrow]
          exact hcap
        · rw [if_neg hat]
          rw [add_zero]
          exact hinv r' hr' hru w
      · have hfalse : ((uid : Nat) == v) = false :=
          beq_eq_false_iff_ne.mpr (fun h => hv h.symm)
        simp only [hfalse, Bool.false_and, Bool.false_eq_true, if_false, List.append_nil]
        exact hinv r' hr' hru w
  · unfold deleteTire
    by_cases hval : isValidObjectId idq = true
    · rcases hf : s.tires.find? (fun t => t.id == idq && t.userId == uid) with _ | t
      · simp only [hval, if_true, hf]
        exact hinv
      · simp only [hval, if_true, hf]
        intro r' hr' hru w
        simp only at hr' ⊢
        refine le_trans (occupiedWidth_mono _ (storedL v s.tires) r'.id w ?_ ?_)
          (hinv r' hr' hru w)
        · exact (List.eraseP_sublist _).filter _
        · intro t' ht'
          exact hw t' (List.mem_of_mem_filter ht')
    · simp only [Bool.not_eq_true] at hval
      simp only [hval, Bool.false_eq_true, if_false]
      exact hinv

theorem C2_capacity_invariant_preserved_witness :
    Inv 0 (postTires 0 "c1" tdA stA).2 ∧ Inv 0 (deleteTire 0 "cccccccccccccccccccccccc" stA).2 :=
  C2_capacity_invariant_preserved 0 0 "c1" tdA "cccccccccccccccccccccccc" stA
    ⟨by decide, by decide⟩ (by unfold Inv; with_unfolding_all decide)

/-- C5: when neither placement pass finds a slot the request fails as
`noSpace` carrying the resolved attributes and the store is unchanged; and
each mutating operation either fully commits (created/deleted result) or
leaves the store unchanged. -/
theorem C5_no_space_atomicity (uid : Nat) (code : String) (d : TireData) (inp : RackInput)
    (idq : String) (s : St) :
    (placeTire code d (s.racks.filter (fun r => r.userId == uid)) (storedL uid s.tires) = none →
      postTires uid code d s = (TireResult.noSpace d, s)) ∧
    ((∃ t, (postTires uid code d s).1 = TireResult.created t) ∨
      postTires uid code d s = (TireResult.noSpace d, s)) ∧
    ((∃ r, (postRacks uid inp s).1 = RackResult.created r) ∨ (postRacks uid inp s).2 = s) ∧
    ((∃ t, (deleteTire uid idq s).1 = DeleteResult.deleted t) ∨ (deleteTire uid idq s).2 = s) := by
  refine ⟨?_, ?_, ?_, ?_⟩
  · intro h
    simp only [postTires, h]
  · rcases hp : placeTire code d (s.racks.filter (fun r => r.userId == uid))
        (storedL uid s.tires) with _ | loc
    · right
      simp only [postTires, hp]
    · left
      simp only [postTires, hp]
      exact ⟨_, rfl⟩
  · cases hn : inp.name with
    | none => right; cases ht : inp.totalWidth <;> simp [postRacks, hn, ht]
    | some nm =>
      cases ht : inp.totalWidth with
      | none => right; simp [postRacks, hn, ht]
      | some tw =>
        by_cases he : nm = ""
        · right; simp [postRacks, hn, ht, he]
        · left
          simp only [postRacks, hn, ht, if_neg he]
          exact ⟨_, rfl⟩
  · unfold deleteTire
    by_cases hval : isValidObjectId idq = true
    · rcases hf : s.tires.find? (fun t => t.id == idq && t.userId == uid) with _ | t
      · right; simp [hval, hf]
      · left; exact ⟨t, by simp [hval, hf]⟩
    · right
      simp only [Bool.not_eq_true] at hval
      simp [hval]

theorem C5_no_space_atomicity_witness :
    postTires 0 "c2" tdB (postTires 0 "c1" tdA stA).2 =
      (TireResult.noSpace tdB, (postTires 0 "c1" tdA stA).2) :=
  (C5_no_space_atomicity 0 "c2" tdB
      { name := none, totalWidth := none, isDouble := none, reservedForBrand := none }
      "zz" (postTires 0 "c1" tdA stA).2).1 (by with_unfolding_all decide)

/-- Concrete fixture: the empty store. -/
def st0 : St := { racks := [], tires := [], nextId := 0 }

/-- Concrete fixture: rack-creation input with totalWidth 0. -/
def inp7 : RackInput :=
  { name := some "A", totalWidth := some 0, isDouble := some false, reservedForBrand := none }

/-- Concrete fixture: the rack that `postRacks` creates from `inp7`. -/
def rack7 : Rack :=
  { id := oid 0, name := "A", totalWidth := 0, isDouble := false,
    reservedForBrand := none, userId := 0 }

/-- C7 counterexample: a rack-creation request with `totalWidth = 0` (and a
nonempty name) is NOT rejected — the rack is created and persisted, so the
claim that `totalWidth ≤ 0` is rejected with a validation error fails. -/
theorem C7_counterexample :
    postRacks 0 inp7 st0 =
      (RackResult.created rack7, { racks := [rack7], tires := [], nextId := 1 }) := by
  with_unfolding_all decide

/-- C7 amended: rack creation rejects with a validation error exactly when
the name is missing or empty or totalWidth is missing (Mongoose `required`),
and in that case no rack is persisted; values of totalWidth that are zero or
negative are accepted. -/
theorem C7_amended_validation (uid : Nat) (inp : RackInput) (s : St)
    (h : inp.name = none ∨ inp.name = some "" ∨ inp.totalWidth = none) :
    postRacks uid inp s = (RackResult.validationError, s) := by
  rcases h with h | h | h
  · cases ht : inp.totalWidth <;> simp [postRacks, h, ht]
  · cases ht : inp.totalWidth with
    | none => simp [postRacks, h, ht]
    | some tw => simp [postRacks, h, ht]
  · cases hn : inp.name with
    | none => simp [postRacks, h, hn]
    | some nm => simp [postRacks, h, hn]

theorem C7_amended_validation_witness :
    postRacks 0 { name := none, totalWidth := some 5, isDouble := none, reservedForBrand := none }
      st0 = (RackResult.validationError, st0) :=
  C7_amended_validation 0
    { name := none, totalWidth := some 5, isDouble := none, reservedForBrand := none }
    st0 (Or.inl rfl)

/-- C8: for every accepted rack creation the stored reservation equals the
supplied reservedForBrand trimmed and uppercased, and a missing or
empty-string reservedForBrand is stored as null. -/
theorem C8_reservation_normalized (uid : Nat) (inp : RackInput) (s : St) (r : Rack) (s' : St)
    (h : postRacks uid inp s = (RackResult.created r, s')) :
    (∀ b, inp.reservedForBrand = some b → b ≠ "" →
      r.reservedForBrand = some (toUpperStr (trimStr b))) ∧
    ((inp.reservedForBrand = none ∨ inp.reservedForBrand = some "") →
      r.reservedForBrand = none) := by
  have hr : r.reservedForBrand = normalizeBrand inp.reservedForBrand := by
    cases hn : inp.name with
    | none => cases ht : inp.totalWidth <;> simp [postRacks, hn, ht] at h
    | some nm =>
      cases ht : inp.totalWidth with
      | none => simp [postRacks, hn, ht] at h
      | some tw =>
        by_cases he : nm = ""
        · simp [postRacks, hn, ht, he] at h
        · simp only [postRacks, hn, ht, if_neg he] at h
          rw [Prod.ext_iff] at h
          obtain ⟨h1, _⟩ := h
          cases h1
          rfl
  refine ⟨?_, ?_⟩
  · intro b hb hbne
    rw [hr, hb]
    simp [normalizeBrand, hbne]
  · rintro (hc | hc)
    · rw [hr, hc]
      rfl
    · rw [hr, hc]
      simp [normalizeBrand]

/-- Concrete fixture: rack-creation input with an unnormalized reservation. -/
def inp8 : RackInput :=
  { name := some "A", totalWidth := some 5, isDouble := none, reservedForBrand := some " bRandY " }

/-- Concrete fixture: the rack that `postRacks` creates from `inp8`. -/
def rack8 : Rack :=
  { id := oid 0, name := "A", totalWidth := 5, isDouble := false,
    reservedForBrand := some "BRANDY", userId := 0 }

theorem C8_reservation_normalized_witness :
    rack8.reservedForBrand = some (toUpperStr (trimStr " bRandY ")) :=
  (C8_reservation_normalized 0 inp8 st0 rack8
      { racks := [rack8], tires := [], nextId := 1 }
      (by with_unfolding_all decide)).1 " bRandY " rfl (by decide)

/-- C10: a syntactically invalid id is rejected as `invalidId` (not
`notFound`) with the store unchanged, and `notFound` is answered only for a
syntactically valid id matching none of the caller's tires, also leaving the
store unchanged. -/
theorem C10_delete_id_validation (uid : Nat) (idq : String) (s : St) :
    (isValidObjectId idq = false → deleteTire uid idq s = (DeleteResult.invalidId, s)) ∧
    ((deleteTire uid idq s).1 = DeleteResult.notFound →
      isValidObjectId idq = true ∧
      s.tires.find? (fun t => t.id == idq && t.userId == uid) = none ∧
      (deleteTire uid idq s).2 = s) := by
  constructor
  · intro h
    simp [deleteTire, h]
  · intro h
    by_cases hval : isValidObjectId idq = true
    · rcases hf : s.tires.find? (fun t => t.id == idq && t.userId == uid) with _ | t
      · exact ⟨hval, hf, by simp [deleteTire, hval, hf]⟩
      · exfalso
        simp [deleteTire, hval, hf] at h
    · exfalso
      simp only [Bool.not_eq_true] at hval
      simp [deleteTire, hval] at h

theorem C10_delete_id_validation_witness :
    deleteTire 0 "zz" stA = (DeleteResult.invalidId, stA) ∧
    (isValidObjectId "cccccccccccccccccccccccc" = true ∧
      stA.tires.find? (fun t => t.id == "cccccccccccccccccccccccc" && t.userId == 0) = none ∧
      (deleteTire 0 "cccccccccccccccccccccccc" stA).2 = stA) :=
  ⟨(C10_delete_id_validation 0 "zz" stA).1 (by decide),
   (C10_delete_id_validation 0 "cccccccccccccccccccccccc" stA).2 (by decide)⟩

theorem matchHere_of_no_dot (q : List Char) (hq : '.' ∉ q) :
    ∀ l : List Char, matchHere (parsePatL q) l = isPrefixCI q l := by
  induction q with
  | nil => intro l; rfl
  | cons c cs ih =>
    intro l
    have hc : ¬c = '.' := fun h => hq (h ▸ List.mem_cons_self c cs)
    have hcs : '.' ∉ cs := fun h => hq (List.mem_cons_of_mem c h)
    cases l with
    | nil => simp [parsePatL, matchHere, isPrefixCI, hc]
    | cons d ds =>
      have hih := ih hcs ds
      simp only [parsePatL] at hih
      simp [parsePatL, matchHere, isPrefixCI, tokMatch, hc, hih]

theorem findMatch_of_no_dot (q : List Char) (hq : '.' ∉ q) :
    ∀ l : List Char, findMatch (parsePatL q) l = occursCI q l := by
  intro l
  induction l with
  | nil => simp [findMatch, occursCI, matchHere_of_no_dot q hq]
  | cons c cs ih => simp [findMatch, occursCI, matchHere_of_no_dot q hq, ih]

theorem regexTest_eq_substr (q s : String) (hq : '.' ∉ q.data) :
    regexTestCI q s = substrCI q s :=
  findMatch_of_no_dot q.data hq s.data

/-- Concrete fixture: a stored tire with no dot in any searchable field. -/
def tSearch : Tire :=
  { id := oid 0, eprelCode := "Q1", brand := "XYZ", model := "N", width := 20,
    aspectRatio := 55, diameter := 16, userId := 0, location := none }

/-- Concrete fixture: store holding only `tSearch`. -/
def stSearch : St := { racks := [], tires := [tSearch], nextId := 1 }

/-- C6 counterexample: the search route feeds the raw query to
`new RegExp(query, 'i')`, so the query "." matches every tire with a
nonempty field — here it returns a tire although "." is not a substring of
its brand, model or catalog code, refuting the claim that search returns
exactly the substring matches. -/
theorem C6_counterexample :
    getSearch 0 "." stSearch = some [tSearch] ∧
    substrCI "." tSearch.brand = false ∧
    substrCI "." tSearch.model = false ∧
    substrCI "." tSearch.eprelCode = false := by
  with_unfolding_all decide

/-- C6 amended: for every owner and nonempty query containing no JS regex
metacharacter, search returns exactly the owner's tires for which the query
occurs as a case-insensitive unanchored substring of the brand, the model or
the catalog code; queries containing metacharacters are instead interpreted
as regular-expression patterns. -/
theorem C6_search_substring (uid : Nat) (q : String) (s : St) (hq : ¬q = "")
    (hm : ∀ c ∈ q.data, c ∉ jsRegexMeta) :
    getSearch uid q s = some (s.tires.filter (fun t =>
      t.userId == uid &&
        (substrCI q t.model || substrCI q t.brand || substrCI q t.eprelCode))) := by
  have hdot : '.' ∉ q.data := fun h => (hm '.' h) (by decide)
  unfold getSearch
  rw [if_neg hq]
  congr 1
  apply List.filter_congr
  intro t _
  rw [regexTest_eq_substr q t.model hdot, regexTest_eq_substr q t.brand hdot,
    regexTest_eq_substr q t.eprelCode hdot]

theorem C6_search_substring_witness :
    getSearch 0 "xy" stSearch = some (stSearch.tires.filter (fun t =>
      t.userId == 0 &&
        (substrCI "xy" t.model || substrCI "xy" t.brand || substrCI "xy" t.eprelCode))) :=
  C6_search_substring 0 "xy" stSearch (by decide) (by decide)

end Garage
